import Mathlib

/-!
Verification development for the Hyperliquid data scraper
(`websocket_client.py`, `rest_client.py`, `data_manager.py`, `csv_writer.py`,
`main.py`, `config.py`).

Python payloads (decoded JSON) are shallowly embedded as `JVal`; Python
exceptions are embedded as `Except String`; the sink boundary (`_write_to_csv`)
is embedded as a list of `Write` records.  CSV cells hold the value whose
Python `str()` lands in the file; wall-clock timestamps (`datetime.now()`)
and payload event timestamps (`datetime.fromtimestamp(ms/1000)`) are kept
symbolic as dedicated cell constructors, since their rendering is external
pure formatting.
-/

/-- A decoded JSON / Python value, as handled by the scraper's callbacks. -/
inductive JVal where
  | null
  | bool (b : Bool)
  | int (n : Int)
  | str (s : String)
  | arr (xs : List JVal)
  | obj (kvs : List (String × JVal))
deriving Repr

/-- Association-list lookup for Python dict access (JSON objects have unique keys). -/
def JVal.lookup (kvs : List (String × JVal)) (k : String) : Option JVal :=
  match kvs with
  | [] => none
  | (k', v) :: rest => if k' = k then some v else JVal.lookup rest k

/-- `d.get(k)` result as an `Option`: `none` when `d` is not a dict or lacks `k`. -/
def JVal.objGet? (v : JVal) (k : String) : Option JVal :=
  match v with
  | .obj kvs => JVal.lookup kvs k
  | _ => none

/-- `d.get(k, default)` on a value already known to be a dict. -/
def JVal.getD (v : JVal) (k : String) (d : JVal) : JVal :=
  (v.objGet? k).getD d

/-- Python truthiness of a decoded JSON value. -/
def JVal.truthy : JVal → Bool
  | .null => false
  | .bool b => b
  | .int n => n != 0
  | .str s => s != ""
  | .arr xs => !xs.isEmpty
  | .obj kvs => !kvs.isEmpty

/-- Whether the value is a Python dict. -/
def JVal.isObj : JVal → Bool
  | .obj _ => true
  | _ => false

/-- Python `v == s` for a string literal `s`: true only when `v` is that string. -/
def jEqStr (v : JVal) (s : String) : Bool :=
  match v with
  | .str t => t == s
  | _ => false

/-- Python-exception-carrying computation: `Except.error` is a raised exception. -/
abbrev Py (α : Type) := Except String α

/-- `d.get(k)` (default `None`): raises `AttributeError` when `d` is not a dict. -/
def pyGet (v : JVal) (k : String) : Py JVal :=
  match v with
  | .obj kvs => pure ((JVal.lookup kvs k).getD .null)
  | _ => throw "AttributeError"

/-- `d.get(k, default)`: raises `AttributeError` when `d` is not a dict. -/
def pyGetD (v : JVal) (k : String) (d : JVal) : Py JVal :=
  match v with
  | .obj kvs => pure ((JVal.lookup kvs k).getD d)
  | _ => throw "AttributeError"

/-- Python `len(v)`: defined on lists, strings and dicts; raises otherwise. -/
def pyLen (v : JVal) : Py Nat :=
  match v with
  | .arr xs => pure xs.length
  | .str s => pure s.length
  | .obj kvs => pure kvs.length
  | _ => throw "TypeError"

/-- Python `v[i]` for a nonnegative index: list element or 1-character string;
dict subscripting by an integer raises `KeyError` on JSON-derived dicts. -/
def pyIndex (v : JVal) (i : Nat) : Py JVal :=
  match v with
  | .arr xs =>
    match xs.get? i with
    | some x => pure x
    | none => throw "IndexError"
  | .str s =>
    match s.toList.get? i with
    | some c => pure (.str (String.mk [c]))
    | none => throw "IndexError"
  | _ => throw "KeyError"

/-- Millisecond event time accepted by `datetime.fromtimestamp(x / 1000)`:
an int (or bool) works, any other payload type raises `TypeError`. -/
def toMs (v : JVal) : Py Int :=
  match v with
  | .int n => pure n
  | .bool b => pure (if b then 1 else 0)
  | _ => throw "TypeError"

/-- Digit-string to natural number (caller has checked all characters are digits). -/
def digitsToNat (cs : List Char) : Nat :=
  cs.foldl (fun n c => n * 10 + (c.toNat - 48)) 0

/-- A Python float value: a finite value (kept as an exact rational, the
embedding convention for float arithmetic), a signed infinity, or NaN. -/
inductive PyFloat where
  | finite (q : ℚ)
  | inf (neg : Bool)
  | nan
deriving Repr, DecidableEq

/-- The white space `float(str)` strips from both ends. -/
def isPySpace (c : Char) : Bool :=
  c = ' ' || c = '\t' || c = '\n' || c = '\r' || c = '\x0b' || c = '\x0c'

/-- The tail of a CPython digit part: digits, with a single underscore
permitted between two digits; yields the digits with underscores removed. -/
def digitPartGo : List Char → Option (List Char)
  | [] => some []
  | '_' :: c :: rest => if c.isDigit then (digitPartGo rest).map (c :: ·) else none
  | ['_'] => none
  | c :: rest => if c.isDigit then (digitPartGo rest).map (c :: ·) else none

/-- A CPython digit part: at least one digit, single underscores permitted
between digits; yields the digits with underscores removed. -/
def digitPart? : List Char → Option (List Char)
  | c :: rest => if c.isDigit then (digitPartGo rest).map (c :: ·) else none
  | [] => none

/-- A possibly empty digit part (either side of the mantissa dot). -/
def digitPartOpt? (cs : List Char) : Option (List Char) :=
  if cs.isEmpty then some [] else digitPart? cs

/-- Python `float(s)` on a string: float()-whitespace is stripped from both
ends; an optional sign is followed by `inf`/`infinity`/`nan` (any letter
case) or by a decimal mantissa (integer digits, optional dot, optional
fraction digits, at least one digit in all) with an optional `e`/`E`
exponent whose digits are required, single underscores permitted between
digits throughout.  Finite values are kept as exact rationals (the
embedding convention); conversion of non-ASCII decimal digits and the
overflow of the IEEE double range (beyond about 1.8e308, where `float()`
returns an infinity) are outside the modelled payloads. -/
def parseFloat? (s : String) : Option PyFloat :=
  let cs := ((s.toList.dropWhile isPySpace).reverse.dropWhile isPySpace).reverse
  let signed : Bool × List Char :=
    match cs with
    | '-' :: r => (true, r)
    | '+' :: r => (false, r)
    | _ => (false, cs)
  let neg := signed.1
  let body := signed.2
  let low := body.map Char.toLower
  if low = "inf".toList || low = "infinity".toList then some (.inf neg)
  else if low = "nan".toList then some .nan
  else
    let mant := body.takeWhile (fun c => c ≠ 'e' ∧ c ≠ 'E')
    let expRest := body.dropWhile (fun c => c ≠ 'e' ∧ c ≠ 'E')
    let ip := mant.takeWhile (· ≠ '.')
    let fpRest := mant.dropWhile (· ≠ '.')
    let fp? : Option (List Char) :=
      match fpRest with
      | [] => some []
      | '.' :: fr => digitPartOpt? fr
      | _ => none
    let exp? : Option Int :=
      match expRest with
      | [] => some 0
      | _ :: er =>
        let esigned : Bool × List Char :=
          match er with
          | '-' :: r => (true, r)
          | '+' :: r => (false, r)
          | _ => (false, er)
        match digitPart? esigned.2 with
        | some ds =>
          some (if esigned.1 then -(digitsToNat ds : Int) else (digitsToNat ds : Int))
        | none => none
    match digitPartOpt? ip, fp?, exp? with
    | some ipd, some fpd, some e =>
      if ipd.isEmpty && fpd.isEmpty then none
      else
        let num0 : Nat := digitsToNat ipd * 10 ^ fpd.length + digitsToNat fpd
        let n0 : Int := if neg then -(num0 : Int) else (num0 : Int)
        let e10 : Int := e - fpd.length
        some (.finite (if 0 ≤ e10 then mkRat (n0 * (10 : Int) ^ e10.toNat) 1
          else mkRat n0 (10 ^ (-e10).toNat)))
    | _, _, _ => none

/-- Python `float(v)`: parses strings, converts ints and bools, raises
(`TypeError`/`ValueError`, collapsed to `none`) on everything else. -/
def pyFloat? (v : JVal) : Option PyFloat :=
  match v with
  | .str s => parseFloat? s
  | .int n => some (.finite (mkRat n 1))
  | .bool b => some (.finite (mkRat (if b then 1 else 0) 1))
  | _ => none

/-- Exact rational subtraction written through `mkRat`, modelling the
finite case of the float subtraction (exact on the inputs the claims
exercise). -/
def ratSub (a b : ℚ) : ℚ :=
  mkRat (a.num * (b.den : Int) - b.num * (a.den : Int)) (a.den * b.den)

/-- IEEE-754 subtraction on the modelled float values; finite arithmetic is
the embedding's exact-rational convention. -/
def pyFloatSub : PyFloat → PyFloat → PyFloat
  | .nan, _ => .nan
  | _, .nan => .nan
  | .inf a, .inf b => if a = b then .nan else .inf a
  | .inf a, .finite _ => .inf a
  | .finite _, .inf b => .inf (!b)
  | .finite a, .finite b => .finite (ratSub a b)

/-- How many times `p` divides `n` (fuel-bounded; `fuel = n` suffices). -/
def padicCount (p : Nat) : Nat → Nat → Nat
  | _, 0 => 0
  | n, fuel + 1 =>
    if 2 ≤ p ∧ n % p = 0 ∧ n ≠ 0 then 1 + padicCount p (n / p) fuel else 0

/-- Python `repr`/`str` of a finite float value: the decimal digits of the
value with the fixed/scientific switch CPython uses (scientific when the
normalized decimal exponent is below -4 or at least 16; the printed
exponent carries a sign and at least two digits; an integral value in the
fixed range renders as `n.0`).  Faithful whenever the exact value has at
most about 15 significant digits, which covers every value the embedded
spread computation reaches from exchange price strings; a denominator with
a prime factor other than 2 or 5 is not the value of any IEEE double, so no
`str()` rendering exists for it and the rational form is returned. -/
def pyReprFinite (q : ℚ) : String :=
  if q.num = 0 then "0.0"
  else
    let k := max (padicCount 2 q.den q.den) (padicCount 5 q.den q.den)
    if (10 ^ k) % q.den ≠ 0 then toString q.num ++ "/" ++ toString q.den
    else
      let n : Nat := q.num.natAbs * (10 ^ k / q.den)
      let s := (toString n).toList
      let p : Int := (s.length : Int) - 1 - (k : Int)
      let sTrim := (s.reverse.dropWhile (· = '0')).reverse
      let sign := if q.num < 0 then "-" else ""
      if -4 ≤ p ∧ p < 16 then
        if 0 ≤ p then
          let ipLen := p.toNat + 1
          let ipad := if sTrim.length < ipLen
            then sTrim ++ List.replicate (ipLen - sTrim.length) '0'
            else sTrim.take ipLen
          let frac := sTrim.drop ipLen
          sign ++ String.mk ipad ++ "." ++
            (if frac.isEmpty then "0" else String.mk frac)
        else
          sign ++ "0." ++ String.mk (List.replicate ((-p).toNat - 1) '0') ++
            String.mk sTrim
      else
        let tail := sTrim.drop 1
        let a := p.natAbs
        sign ++ String.mk (sTrim.take 1) ++
          (if tail.isEmpty then "" else "." ++ String.mk tail) ++
          "e" ++ (if p < 0 then "-" else "+") ++
          (if a < 10 then "0" else "") ++ toString a

/-- Python `str()` of a float: `inf`, `-inf`, `nan`, or the finite
rendering. -/
def pyFloatStr : PyFloat → String
  | .inf neg => if neg then "-inf" else "inf"
  | .nan => "nan"
  | .finite q => pyReprFinite q

/-- One CSV cell: the value whose Python `str()` lands in the file.
`tEvent ms` is `datetime.fromtimestamp(ms / 1000).isoformat()` for a payload
millisecond timestamp; `tNow` is `datetime.now().isoformat()` at write time
(rendering of both is external pure formatting). -/
inductive Cell where
  | py (v : JVal)
  | tEvent (ms : Int)
  | tNow
deriving Repr

/-- A CSV row, as passed to `csv.writer.writerows`. -/
abbrev Row := List Cell

/-- One `_write_to_csv(data_type, rows)` call that reaches the append:
the sink-boundary write record. -/
structure Write where
  kind : String
  rows : List Row
deriving Repr

/-- The four configured data types of `config.CSV_FILES` (`self.file_paths`). -/
def knownKinds : List String := ["trades", "orderbook", "funding_rate", "open_interest"]

/-- `CSVWriter._write_to_csv` (csv_writer.py:191-216): empty `rows` returns
without writing, an unknown data type logs and returns, otherwise one locked
append of the rows occurs (file errors are caught and logged, never raised). -/
def write_to_csv (data_type : String) (rows : List Row) : List Write :=
  if rows.isEmpty then []
  else if knownKinds.contains data_type then [⟨data_type, rows⟩]
  else []

/-- `trade.get('users', ['', ''])[i] if len(trade.get('users', [])) > i else ''`
(csv_writer.py:79-80): the guarded user-address extraction of a trade row. -/
def userAt (trade : JVal) (usersLen i : Nat) : Py JVal :=
  if usersLen > i then pyIndex (trade.getD "users" (.arr [.str "", .str ""])) i
  else pure (.str "")

/-- One row of `CSVWriter.write_trades` (csv_writer.py:71-85): raises when
`trade` is not a dict (`.get`), when its `time` value is non-numeric
(`fromtimestamp`), or when its `users` value has no `len`/indexing. -/
def tradeRow (trade : JVal) : Py Row := do
  if !trade.isObj then throw "AttributeError"
  let ms ← toMs (trade.getD "time" (.int 0))
  let usersLen ← pyLen (trade.getD "users" (.arr []))
  let buyer ← userAt trade usersLen 0
  let seller ← userAt trade usersLen 1
  let crossed := if (trade.getD "crossed" (.bool false)).truthy then "true" else "false"
  pure [Cell.tEvent ms,
        .py (trade.getD "coin" (.str "")),
        .py (trade.getD "side" (.str "")),
        .py (trade.getD "px" (.str "")),
        .py (trade.getD "sz" (.str "")),
        .py (trade.getD "tid" (.str "")),
        .py buyer,
        .py seller,
        .py (trade.getD "hash" (.str "")),
        .py (.str crossed),
        .py (.str "")]

/-- Row construction for a list of trades (the `for trade in trades_data` loop). -/
def tradeRows : List JVal → Py (List Row)
  | [] => pure []
  | t :: rest => do
    let r ← tradeRow t
    let rs ← tradeRows rest
    pure (r :: rs)

/-- `CSVWriter.write_trades` (csv_writer.py:60-87): an empty list returns
without writing, otherwise each trade becomes one row and the rows are
appended in a single sink write. -/
def write_trades (trades_data : List JVal) : Py (List Write) := do
  if trades_data.isEmpty then return []
  let rows ← tradeRows trades_data
  pure (write_to_csv "trades" rows)

/-- `levels[i] if len(levels) > i else []` (csv_writer.py:104-105): the
guarded extraction of the bid (`i = 0`) or ask (`i = 1`) side. -/
def sideAt (levels : JVal) (nLevels i : Nat) : Py JVal :=
  if nLevels > i then pyIndex levels i else pure (.arr [])

/-- `bids[0] if bids else {'px': '', 'sz': ''}` (csv_writer.py:108-109): the
best level of a side, defaulting to the empty-string level. -/
def bestOf (side : JVal) : Py JVal :=
  if side.truthy then pyIndex side 0 else pure (.obj [("px", .str ""), ("sz", .str "")])

/-- `CSVWriter.write_orderbook` (csv_writer.py:89-131): a falsy payload
returns without writing; the event timestamp comes from the payload's
`time` field (default 0); missing `levels` defaults to two empty sides;
an empty side contributes the empty-string default level; the spread is
attempted only when both best-level `px` values are truthy and becomes
`''` when either fails to parse as a float. -/
def write_orderbook (orderbook_data : JVal) : Py (List Write) := do
  if !orderbook_data.truthy then return []
  if !orderbook_data.isObj then throw "AttributeError"
  let ms ← toMs (orderbook_data.getD "time" (.int 0))
  let coin := orderbook_data.getD "coin" (.str "")
  let levels := orderbook_data.getD "levels" (.arr [.arr [], .arr []])
  let nLevels ← pyLen levels
  let bids ← sideAt levels nLevels 0
  let asks ← sideAt levels nLevels 1
  let best_bid ← bestOf bids
  let best_ask ← bestOf asks
  let bidPx ← pyGet best_bid "px"
  let askPx ← pyGet best_ask "px"
  let spread : String :=
    if bidPx.truthy && askPx.truthy then
      match pyFloat? askPx, pyFloat? bidPx with
      | some a, some b => pyFloatStr (pyFloatSub a b)
      | _, _ => ""
    else ""
  let row : Row :=
    [Cell.tEvent ms,
     .py coin,
     .py bids,
     .py asks,
     .py (best_bid.getD "px" (.str "")),
     .py (best_ask.getD "px" (.str "")),
     .py (best_bid.getD "sz" (.str "")),
     .py (best_ask.getD "sz" (.str "")),
     .py (.str spread)]
  pure (write_to_csv "orderbook" [row])

/-- `CSVWriter.write_funding_rate` (csv_writer.py:133-161): a falsy payload
returns without writing; the row is timestamped `datetime.now()` and carries
the payload's `coin` and its `ctx` fields `funding`, `markPx`, `oraclePx`. -/
def write_funding_rate (asset_ctx_data : JVal) : Py (List Write) := do
  if !asset_ctx_data.truthy then return []
  if !asset_ctx_data.isObj then throw "AttributeError"
  let coin := asset_ctx_data.getD "coin" (.str "")
  let ctx := asset_ctx_data.getD "ctx" (.obj [])
  let funding ← pyGetD ctx "funding" (.str "")
  let markPx ← pyGetD ctx "markPx" (.str "")
  let oraclePx ← pyGetD ctx "oraclePx" (.str "")
  let row : Row :=
    [Cell.tNow, .py coin, .py funding, .py (.str ""), .py (.str ""), .py markPx, .py oraclePx]
  pure (write_to_csv "funding_rate" [row])

/-- `CSVWriter.write_open_interest` (csv_writer.py:163-189): a falsy payload
returns without writing; the row is timestamped `datetime.now()` and carries
the payload's `coin` and its `ctx` fields `openInterest`, `markPx`, `oraclePx`. -/
def write_open_interest (asset_ctx_data : JVal) : Py (List Write) := do
  if !asset_ctx_data.truthy then return []
  if !asset_ctx_data.isObj then throw "AttributeError"
  let coin := asset_ctx_data.getD "coin" (.str "")
  let ctx := asset_ctx_data.getD "ctx" (.obj [])
  let openInterest ← pyGetD ctx "openInterest" (.str "")
  let markPx ← pyGetD ctx "markPx" (.str "")
  let oraclePx ← pyGetD ctx "oraclePx" (.str "")
  let row : Row :=
    [Cell.tNow, .py coin, .py openInterest, .py markPx, .py oraclePx]
  pure (write_to_csv "open_interest" [row])

/-- The data payload of the spec scenario frame
`{"channel":"l2Book","data":{"coin":"BTC","levels":[[{"px":"100","sz":"1"}],[{"px":"101","sz":"2"}]]}}`. -/
def scenarioL2Data : JVal :=
  .obj [("coin", .str "BTC"),
        ("levels", .arr [.arr [.obj [("px", .str "100"), ("sz", .str "1")]],
                         .arr [.obj [("px", .str "101"), ("sz", .str "2")]]])]

/-- The spec scenario's asset-context payload (funding rate, mark price,
oracle price, open interest). -/
def scenarioCtx : JVal :=
  .obj [("funding", .str "0.0001"), ("markPx", .str "50000"),
        ("oraclePx", .str "50010"), ("openInterest", .str "1000")]

/-- The filter of `HyperliquidDataManager._handle_trades_data`
(data_manager.py:237): `[trade for trade in data if trade.get('coin') == self.coin]`;
a non-dict element raises `AttributeError` at its `.get`. -/
def filterTrades (coin : String) : List JVal → Py (List JVal)
  | [] => pure []
  | t :: rest =>
    match t with
    | .obj kvs => do
      let keep := jEqStr ((JVal.lookup kvs "coin").getD .null) coin
      let rest' ← filterTrades coin rest
      pure (if keep then t :: rest' else rest')
    | _ => throw "AttributeError"

/-- The `try/except` wrapper shared by the data-manager handlers and fetches:
a raise inside the body is caught and logged, yielding no write. -/
def runCaught (r : Py (List Write)) : List Write :=
  match r with
  | .ok ws => ws
  | .error _ => []

/-- The `try` body of `HyperliquidDataManager._handle_trades_data`
(data_manager.py:234-241): only a nonempty list payload is considered, and
only trades whose `coin` equals the configured instrument are kept. -/
def handle_trades_try (coin : String) (data : JVal) : Py (List Write) := do
  match data with
  | .arr ts =>
    if ts.isEmpty then return []
    let btc_trades ← filterTrades coin ts
    if btc_trades.isEmpty then return []
    write_trades btc_trades
  | _ => return []

/-- `HyperliquidDataManager._handle_trades_data` (data_manager.py:232-244). -/
def handle_trades_data (coin : String) (data : JVal) : List Write :=
  runCaught (handle_trades_try coin data)

/-- The `try` body of `HyperliquidDataManager._handle_orderbook_data`
(data_manager.py:248-251): writes the book only when
`data.get('coin') == self.coin`. -/
def handle_orderbook_try (coin : String) (data : JVal) : Py (List Write) := do
  let c ← pyGet data "coin"
  if jEqStr c coin then write_orderbook data else return []

/-- `HyperliquidDataManager._handle_orderbook_data` (data_manager.py:246-254). -/
def handle_orderbook_data (coin : String) (data : JVal) : List Write :=
  runCaught (handle_orderbook_try coin data)

/-- The `try` body of `HyperliquidDataManager._handle_asset_context_data`
(data_manager.py:258-266): when `data.get('coin') == self.coin`, records the
funding-rate row and the open-interest row from the same payload (both
writer calls raise under exactly the same payload conditions, so a raise
never leaves a partial pair). -/
def handle_asset_context_try (coin : String) (data : JVal) : Py (List Write) := do
  let c ← pyGet data "coin"
  if jEqStr c coin then do
    let w1 ← write_funding_rate data
    let w2 ← write_open_interest data
    pure (w1 ++ w2)
  else return []

/-- `HyperliquidDataManager._handle_asset_context_data` (data_manager.py:256-269). -/
def handle_asset_context_data (coin : String) (data : JVal) : List Write :=
  runCaught (handle_asset_context_try coin data)

/-- The `for asset_ctx in asset_contexts` search shared by
`_fetch_funding_rate_data` and `_fetch_open_interest_data`
(data_manager.py:167-175 and 190-198): the first element whose `coin` equals
the configured instrument yields its `ctx` (default `{}`) and the loop
breaks; a non-dict element reached first raises `AttributeError`. -/
def findCtx (coin : String) : List JVal → Py (Option JVal)
  | [] => pure none
  | a :: rest =>
    match a with
    | .obj kvs =>
      if jEqStr ((JVal.lookup kvs "coin").getD .null) coin then
        pure (some ((JVal.lookup kvs "ctx").getD (.obj [])))
      else findCtx coin rest
    | _ => throw "AttributeError"

/-- The response gate shared by `_fetch_funding_rate_data` and
`_fetch_open_interest_data` (data_manager.py:163-164 and 186-187):
`if meta_data and isinstance(meta_data, list) and len(meta_data) >= 2:`
followed by `asset_contexts = meta_data[1]`; a `None` (failed request),
falsy, non-list or short response yields nothing, and iterating a non-list
second element raises. -/
def assetContexts? (meta_data : Option JVal) : Py (Option (List JVal)) := do
  match meta_data with
  | none => return none
  | some md =>
    if !md.truthy then return none
    match md with
    | .arr elems =>
      if elems.length ≥ 2 then
        match elems.get? 1 with
        | some (.arr ctxs) => pure (some ctxs)
        | some _ => throw "TypeError"
        | none => throw "IndexError"
      else return none
    | _ => return none

/-- The `try` body of `HyperliquidDataManager._fetch_funding_rate_data`
(data_manager.py:159-175): the first matching context is rewrapped as
`{'coin': coin, 'ctx': ctx}` and written as a funding-rate row. -/
def fetch_funding_try (coin : String) (meta_data : Option JVal) : Py (List Write) := do
  match ← assetContexts? meta_data with
  | none => pure []
  | some ctxs =>
    match ← findCtx coin ctxs with
    | some ctx => write_funding_rate (.obj [("coin", .str coin), ("ctx", ctx)])
    | none => pure []

/-- `HyperliquidDataManager._fetch_funding_rate_data` (data_manager.py:157-178). -/
def fetch_funding_rate_data (coin : String) (meta_data : Option JVal) : List Write :=
  runCaught (fetch_funding_try coin meta_data)

/-- The `try` body of `HyperliquidDataManager._fetch_open_interest_data`
(data_manager.py:182-198): identical to the funding fetch except that the
matching context is written through `write_open_interest`. -/
def fetch_oi_try (coin : String) (meta_data : Option JVal) : Py (List Write) := do
  match ← assetContexts? meta_data with
  | none => pure []
  | some ctxs =>
    match ← findCtx coin ctxs with
    | some ctx => write_open_interest (.obj [("coin", .str coin), ("ctx", ctx)])
    | none => pure []

/-- `HyperliquidDataManager._fetch_open_interest_data` (data_manager.py:180-201). -/
def fetch_open_interest_data (coin : String) (meta_data : Option JVal) : List Write :=
  runCaught (fetch_oi_try coin meta_data)

/-- One due tick of `HyperliquidDataManager._rest_data_loop`
(data_manager.py:135-155): when both update intervals have elapsed (they are
both 60 s in config.py), the funding fetch and the open-interest fetch run
back to back; `meta_data` is the response both calls observe. -/
def pollTickWrites (coin : String) (meta_data : Option JVal) : List Write :=
  fetch_funding_rate_data coin meta_data ++ fetch_open_interest_data coin meta_data

/-- Outcome of the single `session.post` inside
`HyperliquidRestClient._make_request` (rest_client.py:188-232). -/
inductive HttpOutcome where
  | success (body : JVal)
  | timeout
  | connError
  | httpError
  | jsonError
  | otherError
deriving Repr

/-- Whether the outcome is one of the failure branches of `_make_request`. -/
def HttpOutcome.isFailure : HttpOutcome → Bool
  | .success _ => false
  | _ => true

/-- `HyperliquidRestClient._make_request` (rest_client.py:188-232): issues
exactly one `session.post` (second component counts transport attempts — the
body has no loop), and every failure branch (`Timeout`, `ConnectionError`,
`HTTPError` from `raise_for_status`, `JSONDecodeError`, and the final
catch-all `Exception`) is caught and converted to the error value `None`
instead of propagating; nothing in the body retries. -/
def make_request (outcome : HttpOutcome) : Option JVal × Nat :=
  match outcome with
  | .success body => (some body, 1)
  | .timeout => (none, 1)
  | .connError => (none, 1)
  | .httpError => (none, 1)
  | .jsonError => (none, 1)
  | .otherError => (none, 1)

/-- Joint state of the pieces the reconnection claim touches:
`HyperliquidDataManager.is_running` (data_manager.py:48),
`HyperliquidWebSocketClient.is_connected` (websocket_client.py:19), and a
count of how many times the subscription batch
`_start_websocket_subscriptions` has been sent. -/
structure SysState where
  isRunning : Bool
  wsConnected : Bool
  subsSent : Nat
deriving Repr, DecidableEq

/-- Steps the source can take while no operator intervenes (`stop()` and
KeyboardInterrupt excluded by the claim's premise).
`closure` is the `websockets.exceptions.ConnectionClosed` branch of
`_listen_messages` (websocket_client.py:133-135): it only clears
`is_connected` and ends the listener task.
`innerTick` is one pass of `run_forever`'s inner
`while self.is_running: await asyncio.sleep(1)` (data_manager.py:302-303),
which changes nothing.
`restart` is `run_forever`'s outer loop re-entering `start()`
(data_manager.py:299), which is reachable only once `is_running` is false
(`start()` on a running manager returns immediately, and the inner loop only
exits when `is_running` is false); it reconnects and re-sends the
subscription batch. -/
inductive SysStep : SysState → SysState → Prop where
  | closure (s : SysState) : s.wsConnected = true →
      SysStep s { s with wsConnected := false }
  | innerTick (s : SysState) : s.isRunning = true → SysStep s s
  | restart (s : SysState) : s.isRunning = false →
      SysStep s { isRunning := true, wsConnected := true, subsSent := s.subsSent + 1 }

/-- Manager state touched by `HyperliquidDataManager.start`
(data_manager.py:60-88). -/
structure MgrState where
  isRunning : Bool
  restThreadStarted : Bool
  s3ThreadStarted : Bool
deriving Repr, DecidableEq

/-- Externally visible effects of one `start()` call. -/
inductive MgrAction where
  | logAlreadyRunning
  | connect
  | subscribeTrades
  | subscribeOrderbook
  | subscribeAssetCtx
  | startRestThread
  | startS3Thread
  | startHeartbeat
deriving Repr, DecidableEq

/-- `HyperliquidDataManager.start` (data_manager.py:60-88): an already
running manager logs a warning and returns before any effect; otherwise the
flag is set, the connection is made, the three subscriptions are issued, the
REST thread starts, the S3 thread starts when S3 is available, and the
heartbeat task is created. -/
def mgr_start (s3Available : Bool) (s : MgrState) : MgrState × List MgrAction :=
  if s.isRunning then (s, [.logAlreadyRunning])
  else
    ({ isRunning := true, restThreadStarted := true, s3ThreadStarted := s3Available },
     [.connect, .subscribeTrades, .subscribeOrderbook, .subscribeAssetCtx,
      .startRestThread]
      ++ (if s3Available then [.startS3Thread] else [])
      ++ [.startHeartbeat])

/-- One inbound WebSocket frame, before JSON decoding: `malformed` raises
`json.JSONDecodeError` in `_listen_messages`, `frame` decodes to a value. -/
inductive Frame where
  | malformed (raw : String)
  | frame (v : JVal)
deriving Repr

/-- One callback delivery: which registry key was invoked, with which channel
string and which decoded payload (`callback(channel, data)`). -/
structure Invocation where
  key : String
  channel : String
  data : JVal
deriving Repr

/-- The callback registry `self.callbacks` (websocket_client.py:18,113):
insertion-ordered keys with, as the only behaviour the dispatch loop can
observe, whether the callback raises when invoked. -/
abbrev Registry := List (String × Bool)

/-- `HyperliquidWebSocketClient._safe_callback` (websocket_client.py:179-187):
the callback is invoked and any exception it raises is caught and logged, so
the invocation always registers and nothing propagates. -/
def safeCallback (key : String) (_raises : Bool) (channel : String) (data : JVal) :
    Py (List Invocation) :=
  pure [⟨key, channel, data⟩]

/-- Python `key.startswith(pfx)` (websocket_client.py:164,170,176). -/
def strStartsWith (s pfx : String) : Bool :=
  s.toList.take pfx.length == pfx.toList

/-- One branch of `_process_data_message` (websocket_client.py:161-177): every
registry key with the channel's prefix is invoked, in registry order, each
through `_safe_callback`. -/
def invokeAll (pfx channel : String) (data : JVal) : Registry → Py (List Invocation)
  | [] => pure []
  | (key, b) :: rest => do
    let here ← if strStartsWith key pfx then safeCallback key b channel data else pure []
    let there ← invokeAll pfx channel data rest
    pure (here ++ there)

/-- `HyperliquidWebSocketClient._process_data_message`
(websocket_client.py:157-177): extracts `data.get("data", {})` and fans it
out to the callbacks whose key starts with `"<channel>_"`. -/
def process_data_message (cbs : Registry) (channel : String) (data : JVal) :
    Py (List Invocation) := do
  let message_data := data.getD "data" (.obj [])
  if channel = "trades" then invokeAll "trades_" channel message_data cbs
  else if channel = "l2Book" then invokeAll "l2Book_" channel message_data cbs
  else if channel = "activeAssetCtx" then invokeAll "activeAssetCtx_" channel message_data cbs
  else pure []

/-- `HyperliquidWebSocketClient._handle_message` (websocket_client.py:140-155):
a subscription acknowledgement is only logged, the three data channels are
dispatched, anything else is logged as unknown; `data.get("channel")` on a
non-dict frame raises. -/
def handle_message (cbs : Registry) (v : JVal) : Py (List Invocation) := do
  let channel ← pyGet v "channel"
  if jEqStr channel "subscriptionResponse" then pure []
  else if jEqStr channel "trades" then process_data_message cbs "trades" v
  else if jEqStr channel "l2Book" then process_data_message cbs "l2Book" v
  else if jEqStr channel "activeAssetCtx" then process_data_message cbs "activeAssetCtx" v
  else pure []

/-- The per-frame body of `HyperliquidWebSocketClient._listen_messages`
(websocket_client.py:120-138): a `JSONDecodeError` and any error raised by
message handling are both caught and logged, and the loop moves to the next
frame; the invocations of each frame accumulate in arrival order. -/
def listenLoop (cbs : Registry) : List Frame → List Invocation
  | [] => []
  | f :: rest =>
    let here : List Invocation :=
      match f with
      | .malformed _ => []
      | .frame v =>
        match handle_message cbs v with
        | .ok is => is
        | .error _ => []
    here ++ listenLoop cbs rest

theorem pyBind_ok {α β : Type} {x : Py α} {f : α → Py β} {b : β}
    (h : x >>= f = .ok b) : ∃ a, x = .ok a ∧ f a = .ok b := by
  cases x with
  | ok a => exact ⟨a, rfl, h⟩
  | error e =>
    simp only [Bind.bind, Except.bind] at h
    exact Except.noConfusion h

theorem filterTrades_nomatch {coin : String} {ts : List JVal}
    (h : ∀ t ∈ ts, jEqStr (t.getD "coin" .null) coin = false) :
    filterTrades coin ts = .ok [] ∨ ∃ e, filterTrades coin ts = .error e := by
  induction ts with
  | nil => exact .inl rfl
  | cons t rest ih =>
    cases t with
    | obj kvs =>
      have hm := h (.obj kvs) (List.mem_cons_self _ _)
      have hrest : ∀ t ∈ rest, jEqStr (t.getD "coin" .null) coin = false :=
        fun t ht => h t (List.mem_cons_of_mem _ ht)
      simp only [JVal.getD, JVal.objGet?] at hm
      rcases ih hrest with h' | ⟨e, h'⟩
      · left
        simp [filterTrades, h', hm, Bind.bind, Except.bind, Pure.pure, Except.pure]
      · right
        exact ⟨e, by simp [filterTrades, h', hm, Bind.bind, Except.bind, Pure.pure, Except.pure]⟩
    | null => exact .inr ⟨"AttributeError", rfl⟩
    | bool b => exact .inr ⟨"AttributeError", rfl⟩
    | int n => exact .inr ⟨"AttributeError", rfl⟩
    | str s => exact .inr ⟨"AttributeError", rfl⟩
    | arr xs => exact .inr ⟨"AttributeError", rfl⟩

theorem jEqStr_getD_true {kvs : List (String × JVal)} {k c : String}
    (h : jEqStr ((JVal.lookup kvs k).getD .null) c = true) :
    JVal.lookup kvs k = some (.str c) := by
  cases hl : JVal.lookup kvs k with
  | none => rw [hl] at h; simp [jEqStr] at h
  | some v =>
    rw [hl] at h
    cases v <;> simp [jEqStr] at h
    simp [h]

theorem filterTrades_sound {coin : String} {ts l : List JVal}
    (h : filterTrades coin ts = .ok l) :
    ∀ t ∈ l, t.getD "coin" (.str "") = .str coin := by
  induction ts generalizing l with
  | nil =>
    simp only [filterTrades] at h
    cases h
    intro t ht
    exact absurd ht (List.not_mem_nil t)
  | cons t rest ih =>
    cases t with
    | obj kvs =>
      simp only [filterTrades] at h
      rcases pyBind_ok h with ⟨l', hl', hp⟩
      have hpure : (if jEqStr ((JVal.lookup kvs "coin").getD .null) coin then
          JVal.obj kvs :: l' else l') = l := by
        cases hp; rfl
      intro u hu
      by_cases hk : jEqStr ((JVal.lookup kvs "coin").getD .null) coin = true
      · rw [if_pos hk] at hpure
        subst hpure
        rcases List.mem_cons.mp hu with rfl | hu'
        · have := jEqStr_getD_true hk
          simp [JVal.getD, JVal.objGet?, this]
        · exact ih hl' u hu'
      · rw [if_neg hk] at hpure
        subst hpure
        exact ih hl' u hu
    | null => exact absurd h (by simp [filterTrades])
    | bool b => exact absurd h (by simp [filterTrades])
    | int n => exact absurd h (by simp [filterTrades])
    | str s => exact absurd h (by simp [filterTrades])
    | arr xs => exact absurd h (by simp [filterTrades])

theorem tradeRows_mem {ts : List JVal} {rows : List Row}
    (h : tradeRows ts = .ok rows) :
    ∀ row ∈ rows, ∃ t ∈ ts, tradeRow t = .ok row := by
  induction ts generalizing rows with
  | nil =>
    simp only [tradeRows] at h
    cases h
    intro row hr
    exact absurd hr (List.not_mem_nil row)
  | cons t rest ih =>
    simp only [tradeRows] at h
    rcases pyBind_ok h with ⟨r, hr, h2⟩
    rcases pyBind_ok h2 with ⟨rs, hrs, h3⟩
    have : r :: rs = rows := by cases h3; rfl
    subst this
    intro row hrow
    rcases List.mem_cons.mp hrow with rfl | hrow'
    · exact ⟨t, List.mem_cons_self _ _, hr⟩
    · rcases ih hrs row hrow' with ⟨u, hu, hu2⟩
      exact ⟨u, List.mem_cons_of_mem _ hu, hu2⟩

theorem runCaught_mem {r : Py (List Write)} {w : Write}
    (h : w ∈ runCaught r) : ∃ ws, r = .ok ws ∧ w ∈ ws := by
  cases r with
  | ok ws => exact ⟨ws, rfl, h⟩
  | error e => simp [runCaught] at h

theorem tradeRow_coin {t : JVal} {row : Row}
    (h : tradeRow t = .ok row) :
    row.get? 1 = some (.py (t.getD "coin" (.str ""))) := by
  cases t with
  | obj kvs =>
    simp only [tradeRow, JVal.isObj, Bool.not_true, Bool.false_eq_true, if_false,
      pure_bind] at h
    rcases pyBind_ok h with ⟨ms, hms, h⟩
    rcases pyBind_ok h with ⟨n, hn, h⟩
    rcases pyBind_ok h with ⟨buyer, hb, h⟩
    rcases pyBind_ok h with ⟨seller, hs, h⟩
    cases h
    rfl
  | null => simp [tradeRow, JVal.isObj, Bind.bind, Except.bind, throw, throwThe,
      MonadExceptOf.throw] at h
  | bool b => simp [tradeRow, JVal.isObj, Bind.bind, Except.bind, throw, throwThe,
      MonadExceptOf.throw] at h
  | int n => simp [tradeRow, JVal.isObj, Bind.bind, Except.bind, throw, throwThe,
      MonadExceptOf.throw] at h
  | str s => simp [tradeRow, JVal.isObj, Bind.bind, Except.bind, throw, throwThe,
      MonadExceptOf.throw] at h
  | arr xs => simp [tradeRow, JVal.isObj, Bind.bind, Except.bind, throw, throwThe,
      MonadExceptOf.throw] at h

theorem write_trades_ok {ts : List JVal} {ws : List Write}
    (h : write_trades ts = .ok ws) :
    ∀ w ∈ ws, ∃ rows, tradeRows ts = .ok rows ∧ w = ⟨"trades", rows⟩ := by
  by_cases hts : ts.isEmpty
  · simp only [write_trades, hts, if_true] at h
    cases h
    intro w hw
    exact absurd hw (List.not_mem_nil w)
  · simp only [write_trades, hts, Bool.false_eq_true, if_false, pure_bind] at h
    rcases pyBind_ok h with ⟨rows, hrows, hp⟩
    intro w hw
    refine ⟨rows, hrows, ?_⟩
    have hws : ws = write_to_csv "trades" rows := by cases hp; rfl
    subst hws
    simp only [write_to_csv] at hw
    by_cases hre : rows.isEmpty
    · simp [hre] at hw
    · simp only [hre, Bool.false_eq_true, if_false] at hw
      rw [if_pos (by decide)] at hw
      simpa using hw

/-- Claim C1: for every inbound event on any of the three topics, an event
whose instrument (`coin`) differs from the configured filter is never
forwarded to the sink (no CSV write), and for a trades event only the trades
whose instrument equals the filter are written (every written trade row
carries the filter instrument in its coin column). -/
theorem claim_c1_instrument_filter :
    (∀ (coin : String) (data : JVal),
        jEqStr (data.getD "coin" .null) coin = false →
        handle_orderbook_data coin data = [])
  ∧ (∀ (coin : String) (data : JVal),
        jEqStr (data.getD "coin" .null) coin = false →
        handle_asset_context_data coin data = [])
  ∧ (∀ (coin : String) (ts : List JVal),
        (∀ t ∈ ts, jEqStr (t.getD "coin" .null) coin = false) →
        handle_trades_data coin (.arr ts) = [])
  ∧ (∀ (coin : String) (data : JVal) (w : Write) (row : Row),
        w ∈ handle_trades_data coin data → row ∈ w.rows →
        row.get? 1 = some (.py (.str coin))) := by
  refine ⟨?_, ?_, ?_, ?_⟩
  · intro coin data h
    cases data <;>
      simp_all [handle_orderbook_data, runCaught, handle_orderbook_try, pyGet,
        JVal.getD, JVal.objGet?, Bind.bind, Except.bind, throw, throwThe,
        MonadExceptOf.throw, pure, Except.pure]
  · intro coin data h
    cases data <;>
      simp_all [handle_asset_context_data, runCaught, handle_asset_context_try, pyGet,
        JVal.getD, JVal.objGet?, Bind.bind, Except.bind, throw, throwThe,
        MonadExceptOf.throw, pure, Except.pure]
  · intro coin ts h
    by_cases hts : ts.isEmpty
    · simp [handle_trades_data, runCaught, handle_trades_try, hts, pure, Except.pure]
    · rcases filterTrades_nomatch h with h' | ⟨e, h'⟩
      · simp [handle_trades_data, runCaught, handle_trades_try, hts, h',
          Bind.bind, Except.bind, pure, Except.pure]
      · simp [handle_trades_data, runCaught, handle_trades_try, hts, h',
          Bind.bind, Except.bind, pure, Except.pure]
  · intro coin data w row hw hrow
    rcases runCaught_mem hw with ⟨ws, hws, hwin⟩
    cases data with
    | arr ts =>
      by_cases hts : ts.isEmpty
      · simp only [handle_trades_try, hts, if_true] at hws
        cases hws
        exact absurd hwin (List.not_mem_nil w)
      · simp only [handle_trades_try, hts, Bool.false_eq_true, if_false, pure_bind] at hws
        rcases pyBind_ok hws with ⟨btc, hbtc, h2⟩
        by_cases hbe : btc.isEmpty
        · simp only [hbe, if_true] at h2
          cases h2
          exact absurd hwin (List.not_mem_nil w)
        · simp only [hbe, Bool.false_eq_true, if_false] at h2
          rcases write_trades_ok h2 w hwin with ⟨rows, hrows, rfl⟩
          rcases tradeRows_mem hrows row hrow with ⟨t, htl, htr⟩
          rw [tradeRow_coin htr, filterTrades_sound hbtc t htl]
    | null => cases hws; exact absurd hwin (List.not_mem_nil w)
    | bool b => cases hws; exact absurd hwin (List.not_mem_nil w)
    | int n => cases hws; exact absurd hwin (List.not_mem_nil w)
    | str s => cases hws; exact absurd hwin (List.not_mem_nil w)
    | obj kvs => cases hws; exact absurd hwin (List.not_mem_nil w)

/-- Witness for C1 at concrete inputs: `InstrumentFilter = "BTC"`, an `"ETH"`
event on each topic yields no write, and the coin column of the one row
written for a matching trade is `"BTC"`. -/
theorem claim_c1_witness :
    handle_orderbook_data "BTC" (.obj [("coin", .str "ETH")]) = [] ∧
    handle_asset_context_data "BTC" (.obj [("coin", .str "ETH")]) = [] ∧
    handle_trades_data "BTC" (.arr [.obj [("coin", .str "ETH")]]) = [] ∧
    ([Cell.tEvent 0, .py (.str "BTC"), .py (.str ""), .py (.str ""), .py (.str ""),
      .py (.str ""), .py (.str ""), .py (.str ""), .py (.str ""), .py (.str "false"),
      .py (.str "")] : Row).get? 1 = some (.py (.str "BTC")) := by
  refine ⟨?_, ?_, ?_, ?_⟩
  · exact claim_c1_instrument_filter.1 "BTC" _ rfl
  · exact claim_c1_instrument_filter.2.1 "BTC" _ rfl
  · refine claim_c1_instrument_filter.2.2.1 "BTC" _ ?_
    intro t ht
    cases List.mem_singleton.mp ht
    rfl
  · refine claim_c1_instrument_filter.2.2.2 "BTC" (.arr [.obj [("coin", .str "BTC")]])
      ⟨"trades", [[Cell.tEvent 0, .py (.str "BTC"), .py (.str ""), .py (.str ""),
        .py (.str ""), .py (.str ""), .py (.str ""), .py (.str ""), .py (.str ""),
        .py (.str "false"), .py (.str "")]]⟩ _ ?_ ?_
    · exact List.mem_singleton.mpr rfl
    · exact List.mem_singleton.mpr rfl

/-- Claim C2 as stated is false on the code: for the scenario frame with
`InstrumentFilter = "BTC"`, exactly one order-book record is forwarded and
its best bid price is `"100"` and best ask price `"101"`, but the derived
spread cell the code writes is `str(float("101") - float("100")) = "1.0"`,
not `"1"`. -/
theorem claim_c2_counterexample :
    (handle_orderbook_data "BTC" scenarioL2Data).length = 1 ∧
    ((handle_orderbook_data "BTC" scenarioL2Data).head?.bind
      (fun w => w.rows.head?.bind (fun r => r.get? 8))) = some (.py (.str "1.0")) ∧
    ((handle_orderbook_data "BTC" scenarioL2Data).head?.bind
      (fun w => w.rows.head?.bind (fun r => r.get? 8))) ≠ some (.py (.str "1")) := by
  refine ⟨rfl, rfl, ?_⟩
  intro h
  have h' : some (Cell.py (.str "1.0")) = some (Cell.py (.str "1")) := h
  have h2 : Cell.py (.str "1.0") = Cell.py (.str "1") := Option.some.inj h'
  have h3 : JVal.str "1.0" = JVal.str "1" := by injection h2
  have h4 : "1.0" = "1" := by injection h3
  exact absurd h4 (by decide)

/-- Claim C2 (amended): for the inbound frame
`{"channel":"l2Book","data":{"coin":"BTC","levels":[[{"px":"100","sz":"1"}],[{"px":"101","sz":"2"}]]}}`
processed with `InstrumentFilter = "BTC"`, exactly one order-book record is
forwarded to the sink, with best bid price `"100"`, best ask price `"101"`,
and derived spread `"1.0"` (Python renders the float difference `1.0` with a
trailing `.0`). -/
theorem claim_c2_orderbook_scenario :
    handle_orderbook_data "BTC" scenarioL2Data =
      [⟨"orderbook",
        [[Cell.tEvent 0,
          .py (.str "BTC"),
          .py (.arr [.obj [("px", .str "100"), ("sz", .str "1")]]),
          .py (.arr [.obj [("px", .str "101"), ("sz", .str "2")]]),
          .py (.str "100"), .py (.str "101"), .py (.str "1"), .py (.str "2"),
          .py (.str "1.0")]]⟩] := rfl

/-- Claim C3: a successful poll tick (both fetches observing a REST response
whose asset-context list resolves the configured instrument to `ctx`)
forwards to the sink exactly the writes that the streaming `asset_context`
handler performs on the equivalent event payload
`{'coin': coin, 'ctx': ctx}`: the same funding-rate record followed by the
same open-interest record, with the same content. -/
theorem claim_c3_poll_refines_stream (coin : String) (meta : JVal)
    (entries : List JVal) (ctx : JVal)
    (hfind : findCtx coin entries = .ok (some ctx)) :
    pollTickWrites coin (some (.arr [meta, .arr entries])) =
      handle_asset_context_data coin (.obj [("coin", .str coin), ("ctx", ctx)]) := by
  cases ctx <;>
    simp [pollTickWrites, fetch_funding_rate_data, fetch_open_interest_data,
      runCaught, fetch_funding_try, fetch_oi_try, assetContexts?, hfind,
      write_funding_rate, write_open_interest,
      handle_asset_context_data, handle_asset_context_try,
      pyGet, pyGetD, JVal.getD, JVal.objGet?, JVal.lookup, JVal.truthy,
      JVal.isObj, jEqStr, write_to_csv, knownKinds,
      Bind.bind, Except.bind, pure, Except.pure, throw, throwThe, MonadExceptOf.throw]

/-- Witness for C3 at the spec's scenario: the poll response
`[meta, [{"coin":"BTC","ctx":{funding, markPx, oraclePx, openInterest}}]]`
with `InstrumentFilter = "BTC"` forwards exactly what the streaming handler
forwards for the same context: a funding-rate record and an open-interest
record carrying those four fields. -/
theorem claim_c3_witness :
    (pollTickWrites "BTC"
        (some (.arr [.null, .arr [.obj [("coin", .str "BTC"), ("ctx", scenarioCtx)]]])) =
      handle_asset_context_data "BTC" (.obj [("coin", .str "BTC"), ("ctx", scenarioCtx)]))
    ∧ pollTickWrites "BTC"
        (some (.arr [.null, .arr [.obj [("coin", .str "BTC"), ("ctx", scenarioCtx)]]])) =
      [⟨"funding_rate",
        [[Cell.tNow, .py (.str "BTC"), .py (.str "0.0001"), .py (.str ""), .py (.str ""),
          .py (.str "50000"), .py (.str "50010")]]⟩,
       ⟨"open_interest",
        [[Cell.tNow, .py (.str "BTC"), .py (.str "1000"), .py (.str "50000"),
          .py (.str "50010")]]⟩] :=
  ⟨claim_c3_poll_refines_stream "BTC" .null
      [.obj [("coin", .str "BTC"), ("ctx", scenarioCtx)]] scenarioCtx rfl, rfl⟩

/-- Claim C4 is contradicted by the code: after a transport closure, no
operator-free execution ever re-runs `start()` or re-issues a subscription.
In every run that begins with the manager running, all reachable states keep
`is_running` true, the subscription batch is never re-sent
(`subsSent` is constant), and once the transport is disconnected it stays
disconnected: the `ConnectionClosed` handler only clears `is_connected`,
nothing watches that flag, and `run_forever`'s inner loop exits only when
`is_running` is false, which no operator-free step makes happen. -/
theorem claim_c4_no_reconnect :
    ∀ s s' : SysState, Relation.ReflTransGen SysStep s s' → s.isRunning = true →
      s'.isRunning = true ∧ s'.subsSent = s.subsSent ∧
        (s.wsConnected = false → s'.wsConnected = false) := by
  intro s s' h
  induction h with
  | refl => intro hr; exact ⟨hr, rfl, fun hc => hc⟩
  | tail hab hbc ih =>
    intro hr
    rcases ih hr with ⟨h1, h2, h3⟩
    cases hbc with
    | closure ht => exact ⟨h1, h2, fun _ => rfl⟩
    | innerTick ht => exact ⟨h1, h2, h3⟩
    | restart ht => rw [ht] at h1; exact absurd h1 (by decide)

/-- Witness for C4's divergence: from the running, connected state with one
subscription batch sent, a transport closure followed by an inner-loop tick
leaves the system running, disconnected, and with the batch still sent only
once — no reconnection and no re-subscription occurred. -/
theorem claim_c4_witness :
    (⟨true, false, 1⟩ : SysState).isRunning = true ∧
    (⟨true, false, 1⟩ : SysState).subsSent = (⟨true, true, 1⟩ : SysState).subsSent ∧
    ((⟨true, true, 1⟩ : SysState).wsConnected = false →
      (⟨true, false, 1⟩ : SysState).wsConnected = false) :=
  claim_c4_no_reconnect ⟨true, true, 1⟩ ⟨true, false, 1⟩
    (Relation.ReflTransGen.tail
      (Relation.ReflTransGen.single (SysStep.closure ⟨true, true, 1⟩ rfl))
      (SysStep.innerTick ⟨true, false, 1⟩ rfl)) rfl

theorem invokeAll_ok (pfx channel : String) (d : JVal) (cbs : Registry) :
    invokeAll pfx channel d cbs =
      .ok (cbs.filterMap fun p =>
        if strStartsWith p.1 pfx then some ⟨p.1, channel, d⟩ else none) := by
  induction cbs with
  | nil => rfl
  | cons p rest ih =>
    rcases p with ⟨k, b⟩
    by_cases hk : strStartsWith k pfx
    · simp [invokeAll, hk, safeCallback, ih, Bind.bind, Except.bind, pure,
        Except.pure, List.filterMap_cons]
    · simp [invokeAll, hk, ih, Bind.bind, Except.bind, pure, Except.pure,
        List.filterMap_cons]

/-- Claim C5: a malformed (non-JSON-decodable) frame is logged and skipped —
the rest of the stream is processed exactly as if the malformed frame were
absent, so the loop does not terminate — and every handler registered for
the topic of the following well-formed frame is still invoked with that
frame's decoded `data` payload. -/
theorem claim_c5_malformed_frame :
    (∀ (cbs : Registry) (raw : String) (fs : List Frame),
        listenLoop cbs (.malformed raw :: fs) = listenLoop cbs fs)
  ∧ (∀ (cbs : Registry) (raw : String) (v : JVal) (fs : List Frame)
        (ch k : String) (b : Bool),
        pyGet v "channel" = .ok (.str ch) →
        ch = "trades" ∨ ch = "l2Book" ∨ ch = "activeAssetCtx" →
        (k, b) ∈ cbs → strStartsWith k (ch ++ "_") = true →
        (⟨k, ch, v.getD "data" (.obj [])⟩ : Invocation) ∈
          listenLoop cbs (.malformed raw :: .frame v :: fs)) := by
  constructor
  · intro cbs raw fs
    simp [listenLoop]
  · intro cbs raw v fs ch k b hch htopic hk hpfx
    have hmem : (⟨k, ch, v.getD "data" (.obj [])⟩ : Invocation) ∈
        (cbs.filterMap fun p =>
          if strStartsWith p.1 (ch ++ "_") then
            some ⟨p.1, ch, v.getD "data" (.obj [])⟩ else none) := by
      refine List.mem_filterMap.mpr ⟨(k, b), hk, ?_⟩
      simp [hpfx]
    have hhm : handle_message cbs v =
        .ok (cbs.filterMap fun p =>
          if strStartsWith p.1 (ch ++ "_") then
            some ⟨p.1, ch, v.getD "data" (.obj [])⟩ else none) := by
      rcases htopic with rfl | rfl | rfl <;>
        simp [handle_message, hch, jEqStr, process_data_message, invokeAll_ok,
          Bind.bind, Except.bind, pure, Except.pure]
    simp only [listenLoop, hhm, List.nil_append]
    exact List.mem_append_left _ hmem

/-- Witness for C5: one registered trades handler, a malformed frame, then a
well-formed trades frame — the malformed frame changes nothing and the
handler still receives the decoded payload. -/
theorem claim_c5_witness :
    (listenLoop [("trades_BTC", false)] [.malformed "oops"] =
      listenLoop [("trades_BTC", false)] [])
  ∧ (⟨"trades_BTC", "trades", .arr []⟩ : Invocation) ∈
      listenLoop [("trades_BTC", false)]
        [.malformed "oops",
         .frame (.obj [("channel", .str "trades"), ("data", .arr [])])] :=
  ⟨claim_c5_malformed_frame.1 [("trades_BTC", false)] "oops" [],
   claim_c5_malformed_frame.2 [("trades_BTC", false)] "oops"
     (.obj [("channel", .str "trades"), ("data", .arr [])]) []
     "trades" "trades_BTC" false rfl (Or.inl rfl)
     (List.mem_singleton.mpr rfl) (by decide)⟩

theorem filterMap_keyFun {β : Type} (g : String → Option β) :
    ∀ l l' : Registry, l.map Prod.fst = l'.map Prod.fst →
      l.filterMap (fun p => g p.1) = l'.filterMap (fun p => g p.1) := by
  intro l
  induction l with
  | nil =>
    intro l' hl'
    cases l' with
    | nil => rfl
    | cons q qs => exact absurd hl' (by simp)
  | cons p ps ih =>
    intro l' hl'
    cases l' with
    | nil => exact absurd hl' (by simp)
    | cons q qs =>
      simp only [List.map_cons, List.cons.injEq] at hl'
      simp only [List.filterMap_cons, hl'.1, ih qs hl'.2]

theorem process_data_message_keys {cbs cbs' : Registry}
    (hmap : cbs.map Prod.fst = cbs'.map Prod.fst) (ch : String) (v : JVal) :
    process_data_message cbs ch v = process_data_message cbs' ch v := by
  have key : ∀ pfx chs : String,
      (cbs.filterMap fun p =>
        if strStartsWith p.1 pfx then
          some (⟨p.1, chs, v.getD "data" (.obj [])⟩ : Invocation) else none) =
      cbs'.filterMap fun p =>
        if strStartsWith p.1 pfx then
          some ⟨p.1, chs, v.getD "data" (.obj [])⟩ else none := by
    intro pfx chs
    exact filterMap_keyFun (fun k =>
      if strStartsWith k pfx then
        some (⟨k, chs, v.getD "data" (.obj [])⟩ : Invocation) else none)
      cbs cbs' hmap
  unfold process_data_message
  by_cases h1 : ch = "trades"
  · simp [h1, invokeAll_ok, key]
  · by_cases h2 : ch = "l2Book"
    · simp [h1, h2, invokeAll_ok, key]
    · by_cases h3 : ch = "activeAssetCtx"
      · simp [h1, h2, h3, invokeAll_ok, key]
      · simp [h1, h2, h3]

theorem handle_message_keys {cbs cbs' : Registry}
    (hmap : cbs.map Prod.fst = cbs'.map Prod.fst) (v : JVal) :
    handle_message cbs v = handle_message cbs' v := by
  cases v with
  | obj kvs =>
    simp only [handle_message, pyGet, pure_bind]
    rw [process_data_message_keys hmap "trades",
        process_data_message_keys hmap "l2Book",
        process_data_message_keys hmap "activeAssetCtx"]
  | null => rfl
  | bool b => rfl
  | int n => rfl
  | str s => rfl
  | arr xs => rfl

/-- Claim C6: in a dispatch round on any of the three topics, the set of
invocations is exactly all registered handlers whose key matches the topic,
no error escapes (`_safe_callback` catches what a handler raises), the
outcome does not depend on which handlers raise, and the rest of the frame
stream — including frames of other topics — is delivered unchanged. -/
theorem claim_c6_handler_isolation :
    (∀ (cbs : Registry) (ch : String) (v : JVal),
        ch = "trades" ∨ ch = "l2Book" ∨ ch = "activeAssetCtx" →
        process_data_message cbs ch v =
          .ok (cbs.filterMap fun p =>
            if strStartsWith p.1 (ch ++ "_") then
              some ⟨p.1, ch, v.getD "data" (.obj [])⟩ else none))
  ∧ (∀ cbs cbs' : Registry, cbs.map Prod.fst = cbs'.map Prod.fst →
        ∀ fs : List Frame, listenLoop cbs fs = listenLoop cbs' fs) := by
  constructor
  · intro cbs ch v htopic
    rcases htopic with rfl | rfl | rfl <;>
      simp [process_data_message, invokeAll_ok, Bind.bind, Except.bind, pure,
        Except.pure]
  · intro cbs cbs' hmap fs
    induction fs with
    | nil => rfl
    | cons f rest ih =>
      cases f with
      | malformed raw => simp [listenLoop, ih]
      | frame v => simp [listenLoop, handle_message_keys hmap v, ih]

/-- Witness for C6: with two handlers registered for the trades topic, the
first raising, the dispatch round still delivers to both, and flipping the
raise flag leaves the whole processed stream unchanged. -/
theorem claim_c6_witness :
    process_data_message [("trades_a", true), ("trades_b", false)] "trades"
        (.obj [("data", .int 7)]) =
      .ok [⟨"trades_a", "trades", .int 7⟩, ⟨"trades_b", "trades", .int 7⟩]
    ∧ listenLoop [("trades_a", true)]
        [.frame (.obj [("channel", .str "trades"), ("data", .int 7)])] =
      listenLoop [("trades_a", false)]
        [.frame (.obj [("channel", .str "trades"), ("data", .int 7)])] :=
  ⟨claim_c6_handler_isolation.1 [("trades_a", true), ("trades_b", false)] "trades"
      (.obj [("data", .int 7)]) (Or.inl rfl),
   claim_c6_handler_isolation.2 [("trades_a", true)] [("trades_a", false)] rfl
      [.frame (.obj [("channel", .str "trades"), ("data", .int 7)])]⟩

/-- Claim C7: every polling call issues exactly one transport request (no
retry inside `_make_request`), every failure branch — timeout, connection
error, HTTP status error, malformed (non-JSON) body, or any other exception —
is caught and returned as the error value `None` instead of propagating, and
a successful call returns the decoded body. -/
theorem claim_c7_poll_error_containment :
    ∀ o : HttpOutcome,
      (make_request o).2 = 1 ∧
      (o.isFailure = true → (make_request o).1 = none) ∧
      (∀ body, o = .success body → (make_request o).1 = some body) := by
  intro o
  cases o <;> simp [make_request, HttpOutcome.isFailure]

/-- Witness for C7: a timed-out call returns `None` after its single attempt. -/
theorem claim_c7_witness :
    (make_request .timeout).2 = 1 ∧ (make_request .timeout).1 = none :=
  ⟨(claim_c7_poll_error_containment .timeout).1,
   (claim_c7_poll_error_containment .timeout).2.1 rfl⟩

/-- Claim C8: calling `start()` while the manager is already running is a
no-op apart from the warning log: the state is returned unchanged and no
connect, subscribe, thread-start or heartbeat effect is produced. -/
theorem claim_c8_start_idempotent :
    ∀ (s3Available : Bool) (s : MgrState), s.isRunning = true →
      mgr_start s3Available s = (s, [.logAlreadyRunning]) := by
  intro s3Available s h
  simp [mgr_start, h]

/-- Witness for C8: a running manager (REST thread started, no S3 thread)
is left exactly as it is. -/
theorem claim_c8_witness :
    mgr_start false ⟨true, true, false⟩ =
      (⟨true, true, false⟩, [.logAlreadyRunning]) :=
  claim_c8_start_idempotent false ⟨true, true, false⟩ rfl

@[simp] theorem ok_bind {α β : Type} (a : α) (f : α → Py β) :
    (Except.ok a : Py α) >>= f = f a := rfl

@[simp] theorem error_bind {α β : Type} (e : String) (f : α → Py β) :
    (Except.error e : Py α) >>= f = Except.error e := rfl

@[simp] theorem map_ok {α β : Type} (f : α → β) (a : α) :
    f <$> (Except.ok a : Py α) = Except.ok (f a) := rfl

@[simp] theorem map_error {α β : Type} (f : α → β) (e : String) :
    f <$> (Except.error e : Py α) = Except.error e := rfl

theorem tradeRow_head {t : JVal} {row : Row} (h : tradeRow t = .ok row) :
    ∃ ms, toMs (t.getD "time" (.int 0)) = .ok ms ∧
      row.head? = some (Cell.tEvent ms) := by
  cases t with
  | obj kvs =>
    simp only [tradeRow, JVal.isObj, Bool.not_true, Bool.false_eq_true, if_false,
      pure_bind] at h
    rcases pyBind_ok h with ⟨ms, hms, h⟩
    rcases pyBind_ok h with ⟨n, hn, h⟩
    rcases pyBind_ok h with ⟨buyer, hb, h⟩
    rcases pyBind_ok h with ⟨seller, hs, h⟩
    cases h
    exact ⟨ms, hms, rfl⟩
  | null => simp [tradeRow, JVal.isObj, Bind.bind, Except.bind, throw, throwThe,
      MonadExceptOf.throw] at h
  | bool b => simp [tradeRow, JVal.isObj, Bind.bind, Except.bind, throw, throwThe,
      MonadExceptOf.throw] at h
  | int n => simp [tradeRow, JVal.isObj, Bind.bind, Except.bind, throw, throwThe,
      MonadExceptOf.throw] at h
  | str s => simp [tradeRow, JVal.isObj, Bind.bind, Except.bind, throw, throwThe,
      MonadExceptOf.throw] at h
  | arr xs => simp [tradeRow, JVal.isObj, Bind.bind, Except.bind, throw, throwThe,
      MonadExceptOf.throw] at h

/-- Claim C10: every funding-rate and open-interest row is timestamped with
the wall clock at write time (`datetime.now()`), never with a payload
timestamp, while every trades and order-book row is timestamped from the
payload's millisecond event-time field (`datetime.fromtimestamp(time/1000)`,
where `time` defaults to 0). -/
theorem claim_c10_timestamps :
    (∀ (d : JVal) (ws : List Write), write_funding_rate d = .ok ws →
        ∀ w ∈ ws, ∀ row ∈ w.rows, row.head? = some Cell.tNow)
  ∧ (∀ (d : JVal) (ws : List Write), write_open_interest d = .ok ws →
        ∀ w ∈ ws, ∀ row ∈ w.rows, row.head? = some Cell.tNow)
  ∧ (∀ (ts : List JVal) (ws : List Write), write_trades ts = .ok ws →
        ∀ w ∈ ws, ∀ row ∈ w.rows, ∃ t ∈ ts, ∃ ms,
          toMs (t.getD "time" (.int 0)) = .ok ms ∧
          row.head? = some (Cell.tEvent ms))
  ∧ (∀ (d : JVal) (ws : List Write) (ms : Int),
        write_orderbook d = .ok ws → toMs (d.getD "time" (.int 0)) = .ok ms →
        ∀ w ∈ ws, ∀ row ∈ w.rows, row.head? = some (Cell.tEvent ms)) := by
  refine ⟨?_, ?_, ?_, ?_⟩
  · intro d ws h w hw row hrow
    by_cases hd : d.truthy
    · by_cases hobj : d.isObj
      · simp only [write_funding_rate, hd, hobj, Bool.not_true, Bool.false_eq_true,
          if_false, pure_bind] at h
        rcases pyBind_ok h with ⟨funding, h1, h⟩
        rcases pyBind_ok h with ⟨markPx, h2, h⟩
        rcases pyBind_ok h with ⟨oraclePx, h3, h⟩
        cases h
        simp only [write_to_csv, knownKinds] at hw
        rw [if_neg (by simp), if_pos (by decide)] at hw
        rcases List.mem_singleton.mp hw with rfl
        rcases List.mem_singleton.mp hrow with rfl
        rfl
      · simp only [write_funding_rate, hd, Bool.not_true, Bool.false_eq_true,
          if_false, pure_bind] at h
        rw [if_pos (by simp [hobj])] at h
        exact absurd h (by simp [throw, throwThe, MonadExceptOf.throw])
    · simp only [write_funding_rate] at h
      rw [if_pos (by simp [hd])] at h
      cases h
      exact absurd hw (List.not_mem_nil w)
  · intro d ws h w hw row hrow
    by_cases hd : d.truthy
    · by_cases hobj : d.isObj
      · simp only [write_open_interest, hd, hobj, Bool.not_true, Bool.false_eq_true,
          if_false, pure_bind] at h
        rcases pyBind_ok h with ⟨oi, h1, h⟩
        rcases pyBind_ok h with ⟨markPx, h2, h⟩
        rcases pyBind_ok h with ⟨oraclePx, h3, h⟩
        cases h
        simp only [write_to_csv, knownKinds] at hw
        rw [if_neg (by simp), if_pos (by decide)] at hw
        rcases List.mem_singleton.mp hw with rfl
        rcases List.mem_singleton.mp hrow with rfl
        rfl
      · simp only [write_open_interest, hd, Bool.not_true, Bool.false_eq_true,
          if_false, pure_bind] at h
        rw [if_pos (by simp [hobj])] at h
        exact absurd h (by simp [throw, throwThe, MonadExceptOf.throw])
    · simp only [write_open_interest] at h
      rw [if_pos (by simp [hd])] at h
      cases h
      exact absurd hw (List.not_mem_nil w)
  · intro ts ws h w hw row hrow
    rcases write_trades_ok h w hw with ⟨rows, hrows, rfl⟩
    rcases tradeRows_mem hrows row hrow with ⟨t, htl, htr⟩
    rcases tradeRow_head htr with ⟨ms, hms, hhead⟩
    exact ⟨t, htl, ms, hms, hhead⟩
  · intro d ws ms h hms w hw row hrow
    by_cases hd : d.truthy
    · by_cases hobj : d.isObj
      · simp only [write_orderbook, hd, hobj, Bool.not_true, Bool.false_eq_true,
          if_false, pure_bind] at h
        rcases pyBind_ok h with ⟨ms', hms', h⟩
        have hinj : ms' = ms := by
          have := hms'.symm.trans hms
          exact Except.ok.inj this
        subst hinj
        rcases pyBind_ok h with ⟨nLevels, h1, h⟩
        rcases pyBind_ok h with ⟨bids, h2, h⟩
        rcases pyBind_ok h with ⟨asks, h3, h⟩
        rcases pyBind_ok h with ⟨best_bid, h4, h⟩
        rcases pyBind_ok h with ⟨best_ask, h5, h⟩
        rcases pyBind_ok h with ⟨bidPx, h6, h⟩
        rcases pyBind_ok h with ⟨askPx, h7, h⟩
        cases h
        simp only [write_to_csv, knownKinds] at hw
        rw [if_neg (by simp), if_pos (by decide)] at hw
        rcases List.mem_singleton.mp hw with rfl
        rcases List.mem_singleton.mp hrow with rfl
        rfl
      · simp only [write_orderbook, hd, Bool.not_true, Bool.false_eq_true,
          if_false, pure_bind] at h
        rw [if_pos (by simp [hobj])] at h
        exact absurd h (by simp [throw, throwThe, MonadExceptOf.throw])
    · simp only [write_orderbook] at h
      rw [if_pos (by simp [hd])] at h
      cases h
      exact absurd hw (List.not_mem_nil w)

/-- Witness for C10: the funding row of the asset-context scenario is
wall-clock-stamped, and the order-book scenario row is stamped with the
payload's event time (0, the default for an absent `time` field). -/
theorem claim_c10_witness :
    ([Cell.tNow, .py (.str "BTC"), .py (.str "0.0001"), .py (.str ""),
      .py (.str ""), .py (.str "50000"), .py (.str "50010")] : Row).head? =
        some Cell.tNow
    ∧ ([Cell.tEvent 0, .py (.str "BTC"),
        .py (.arr [.obj [("px", .str "100"), ("sz", .str "1")]]),
        .py (.arr [.obj [("px", .str "101"), ("sz", .str "2")]]),
        .py (.str "100"), .py (.str "101"), .py (.str "1"), .py (.str "2"),
        .py (.str "1.0")] : Row).head? = some (Cell.tEvent 0) := by
  constructor
  · exact claim_c10_timestamps.1 (.obj [("coin", .str "BTC"), ("ctx", scenarioCtx)])
      [⟨"funding_rate", [[Cell.tNow, .py (.str "BTC"), .py (.str "0.0001"),
        .py (.str ""), .py (.str ""), .py (.str "50000"), .py (.str "50010")]]⟩]
      rfl _ (List.mem_singleton.mpr rfl) _ (List.mem_singleton.mpr rfl)
  · exact claim_c10_timestamps.2.2.2 scenarioL2Data
      [⟨"orderbook", [[Cell.tEvent 0, .py (.str "BTC"),
        .py (.arr [.obj [("px", .str "100"), ("sz", .str "1")]]),
        .py (.arr [.obj [("px", .str "101"), ("sz", .str "2")]]),
        .py (.str "100"), .py (.str "101"), .py (.str "1"), .py (.str "2"),
        .py (.str "1.0")]]⟩] 0
      rfl rfl _ (List.mem_singleton.mpr rfl) _ (List.mem_singleton.mpr rfl)
